import Mathlib

/-!
Shallow embedding of `crates/ruma-macros/src/api.rs` from the ruma repository:
the `ruma_api!` endpoint compiler core (grammar parsing of the four keyed
sections, metadata-descriptor emission, error-type resolution, and the
memoized Cargo-manifest capability check), together with proofs of the
claims of the specification about it.
-/

deriving instance DecidableEq for Except

namespace RumaApi

/-- Source span of a token, modelled as a natural number.  `Span::call_site()`
is modelled as the distinguished span `0`. -/
abbrev Span := Nat

/-- The call-site span used by `ensure_feature_presence` for all its errors
(`Span::call_site()` in the source). -/
def callSite : Span := 0

/-- A `syn::Error`: a diagnostic message attached to a source span. -/
structure SynError where
  span : Span
  msg : String
deriving DecidableEq, Repr

/-- An outer attribute (`syn::Attribute`) as far as `api.rs` observes it:
its path text and its source span (`syn::Error::new_spanned(&attributes[0], _)`
uses the span). -/
structure Attribute where
  path : String
  span : Span
deriving DecidableEq, Repr

/-- A named field inside a `request`/`response` brace group
(`Field::parse_named`), reduced to its name and type text. -/
structure Field where
  name : String
  ty : String
deriving DecidableEq, Repr

/-- A protocol version (lifecycle marker).  Modelled from the spec: the
`MatrixVersion` type lives outside `api.rs`; the spec only requires "a version
value", here a major/minor pair. -/
structure Version where
  major : Nat
  minor : Nat
deriving DecidableEq, Repr

/-- Componentwise order on versions, used only to express (non-)monotonicity
of the lifecycle markers in statements; the source never compares versions. -/
def Version.le (a b : Version) : Prop :=
  a.major < b.major ∨ (a.major = b.major ∧ a.minor ≤ b.minor)

/-- The `metadata` section as `Api::expand_all` consumes it.  Modelled from the
spec: the `Metadata` struct and its parser live in the `api_metadata` submodule,
which is not in the source tree; the field list is exactly the set of fields
`api.rs` reads (spec section 3). -/
structure Metadata where
  description : String
  method : String
  name : String
  unstable_path : Option String
  r0_path : Option String
  stable_path : Option String
  added : Option Version
  deprecated : Option Version
  removed : Option Version
  rate_limited : Bool
  authentication : String
deriving DecidableEq, Repr

/-- The `request` section: section keyword span, leading attributes, and the
named fields (struct built at `parse_request` in `api.rs`). -/
structure Request where
  request_kw : Span
  attributes : List Attribute
  fields : List Field
deriving DecidableEq, Repr

/-- The `response` section: attributes, named fields, and the section keyword
span (struct built at `parse_response` in `api.rs`). -/
structure Response where
  attributes : List Attribute
  fields : List Field
  response_kw : Span
deriving DecidableEq, Repr

/-- The result of processing the `ruma_api!` macro (`struct Api` in `api.rs`). -/
structure Api where
  metadata : Metadata
  request : Option Request
  response : Option Response
  error_ty : Option String
deriving DecidableEq, Repr

/-- One token of the macro input as `<Api as Parse>::parse` observes it after
the metadata section: an outer attribute, one of the custom keywords
`request` / `response` / `error` (each carrying its span), a colon, a braced
group of named fields, or a type reference. -/
inductive Tok where
  | attrT (a : Attribute)
  | requestKw (s : Span)
  | responseKw (s : Span)
  | errorKw (s : Span)
  | colon
  | braceGroup (fields : List Field)
  | typeRef (t : String)
deriving DecidableEq, Repr

/-- `input.call(Attribute::parse_outer)`: consume every leading attribute
token. -/
def parseOuterAttrs : List Tok → List Attribute × List Tok
  | Tok.attrT a :: rest =>
    let p := parseOuterAttrs rest
    (a :: p.1, p.2)
  | toks => ([], toks)

/-- `input.peek(kw::request)`. -/
def peekRequest : List Tok → Bool
  | Tok.requestKw _ :: _ => true
  | _ => false

/-- `input.peek(kw::response)`. -/
def peekResponse : List Tok → Bool
  | Tok.responseKw _ :: _ => true
  | _ => false

/-- `input.peek(kw::error)`. -/
def peekError : List Tok → Bool
  | Tok.errorKw _ :: _ => true
  | _ => false

/-- Head token is an attribute (used to state where `parseOuterAttrs` stops). -/
def peekAttr : List Tok → Bool
  | Tok.attrT _ :: _ => true
  | _ => false

/-- The semantic-error message issued when attributes remain with no
`response` section to attach them to (`api.rs` line 128). -/
def attrsOnErrorMsg : String := "attributes are not supported on the error type"

/-- `parse_request` (`api.rs` lines 148-157): consume the `request` keyword, a
colon and a braced named-field list; attach the accumulated attributes. -/
def parse_request (toks : List Tok) (attributes : List Attribute) :
    Except SynError (Request × List Tok) :=
  match toks with
  | Tok.requestKw s :: Tok.colon :: Tok.braceGroup fs :: rest =>
    Except.ok ({ request_kw := s, attributes := attributes, fields := fs }, rest)
  | _ => Except.error { span := callSite, msg := "expected request section" }

/-- `parse_response` (`api.rs` lines 159-168): consume the `response` keyword,
a colon and a braced named-field list; attach the accumulated attributes. -/
def parse_response (toks : List Tok) (attributes : List Attribute) :
    Except SynError (Response × List Tok) :=
  match toks with
  | Tok.responseKw s :: Tok.colon :: Tok.braceGroup fs :: rest =>
    Except.ok ({ attributes := attributes, fields := fs, response_kw := s }, rest)
  | _ => Except.error { span := callSite, msg := "expected response section" }

/-- The `error: <Type>` tail (`api.rs` lines 134-142): if the next token is the
`error` keyword, consume it, a colon and a type reference. -/
def parseErrorTy : List Tok → Except SynError (Option String × List Tok)
  | Tok.errorKw _ :: Tok.colon :: Tok.typeRef t :: rest => Except.ok (some t, rest)
  | Tok.errorKw s :: _ =>
    Except.error { span := s, msg := "expected colon and type after error keyword" }
  | toks => Except.ok (none, toks)

/-- `<Api as Parse>::parse` (`api.rs` lines 108-146), taking the already-parsed
metadata section as an argument (its parser lives in the external
`api_metadata` submodule).  Leading attributes are reserved for `request` if
the `request` keyword follows, otherwise for `response`; attributes left over
with no `response` section following are a semantic error spanned at the first
such attribute. -/
def Api.parse (metadata : Metadata) (toks : List Tok) : Except SynError Api :=
  let p1 := parseOuterAttrs toks
  let req_attrs := p1.1
  let step1 : Except SynError (Option Request × List Attribute × List Tok) :=
    if peekRequest p1.2 then
      match parse_request p1.2 req_attrs with
      | Except.error e => Except.error e
      | Except.ok (request, toks2) =>
        let p2 := parseOuterAttrs toks2
        Except.ok (some request, p2.1, p2.2)
    else
      Except.ok (none, req_attrs, p1.2)
  match step1 with
  | Except.error e => Except.error e
  | Except.ok (request, attributes, toks3) =>
    let step2 : Except SynError (Option Response × List Tok) :=
      if peekResponse toks3 then
        match parse_response toks3 attributes with
        | Except.error e => Except.error e
        | Except.ok (response, toks4) => Except.ok (some response, toks4)
      else
        match attributes with
        | a :: _ => Except.error { span := a.span, msg := attrsOnErrorMsg }
        | [] => Except.ok (none, toks3)
    match step2 with
    | Except.error e => Except.error e
    | Except.ok (response, toks5) =>
      match parseErrorTy toks5 with
      | Except.error e => Except.error e
      | Except.ok (error_ty, _) =>
        Except.ok { metadata := metadata, request := request,
                    response := response, error_ty := error_ty }

/-! Emission (`Api::expand_all`, `api.rs` lines 52-105). -/

/-- Lowering of an optional literal into the emitted token stream.  Modelled
from the spec: `util::map_option_literal` lives in the `api/util.rs` submodule,
which is not in the source tree; the spec (sections 4.2, 8) requires every
optional path/version field to lower to an explicit present/absent marker
(`Some(#lit)` / `None` tokens), never a defaulted value. -/
inductive Lowered (α : Type) where
  | absent
  | present (a : α)
deriving DecidableEq, Repr

/-- Modelled from the spec: `util::map_option_literal`, the lowering of an
optional literal to an explicit present/absent token marker. -/
def map_option_literal {α : Type} : Option α → Lowered α
  | none => Lowered.absent
  | some a => Lowered.present a

/-- Recover the optional value from its lowered marker. -/
def Lowered.toOption {α : Type} : Lowered α → Option α
  | Lowered.absent => none
  | Lowered.present a => some a

/-- A symbol path in the emitted tokens, such as `#http::Method::#method` or
`#ruma_common::api::AuthScheme::#authentication`: a fixed path prefix applied
to the identifier taken from the metadata. -/
structure SymbolPath where
  base : String
  ident : String
deriving DecidableEq, Repr

/-- The emitted `METADATA` descriptor constant (`api.rs` lines 85-97): one
entry per field of the `ruma_common::api::Metadata` initializer, in source
order. -/
structure Descriptor where
  description : String
  method : SymbolPath
  name : String
  unstable_path : Lowered String
  r0_path : Lowered String
  stable_path : Lowered String
  added : Lowered Version
  deprecated : Lowered Version
  removed : Lowered Version
  rate_limited : Bool
  authentication : SymbolPath
deriving DecidableEq, Repr

/-- The error type interpolated into the emitted tokens: either the default
`#ruma_common::api::error::MatrixError` or the type written in the `error`
section (`api.rs` lines 71-74). -/
inductive ErrorTyTokens where
  | matrixError
  | custom (t : String)
deriving DecidableEq, Repr

/-- `self.error_ty.map_or_else(|| MatrixError tokens, |err_ty| err_ty tokens)`
(`api.rs` lines 71-74). -/
def resolveErrorTy : Option String → ErrorTyTokens
  | none => ErrorTyTokens.matrixError
  | some t => ErrorTyTokens.custom t

/-- The delegate call `req.expand(metadata, &error_ty, &ruma_common)`
(`api.rs` line 76).  The delegate lives in the external `api_request`
submodule; per the delegate contract of the spec (section 4.4) it is modelled as the
record of the arguments handed to it. -/
structure RequestExpansion where
  metadata : Metadata
  error_ty : ErrorTyTokens
  request : Request
deriving DecidableEq, Repr

/-- The delegate call `res.expand(metadata, &error_ty, &ruma_common)`
(`api.rs` line 77), modelled like `RequestExpansion`. -/
structure ResponseExpansion where
  metadata : Metadata
  error_ty : ErrorTyTokens
  response : Response
deriving DecidableEq, Repr

/-- One top-level item of the emitted token stream: a `compile_error!`
diagnostic from the capability check, the doc-commented `METADATA` descriptor
constant, a delegated request or response binding, or the
`type _SilenceUnusedError = #error_ty;` placeholder. -/
inductive Item where
  | compileError (e : SynError)
  | metadataConst (doc : String) (d : Descriptor)
  | requestBinding (r : RequestExpansion)
  | responseBinding (r : ResponseExpansion)
  | silenceUnused (ty : ErrorTyTokens)
deriving DecidableEq, Repr

/-- The descriptor built from the metadata section by `expand_all`
(`api.rs` lines 58-69 and 85-97): scalar fields copied verbatim, method and
authentication turned into symbol paths, optional fields lowered through
`map_option_literal`. -/
def mkDescriptor (metadata : Metadata) : Descriptor :=
  { description := metadata.description
    method := { base := "http::Method", ident := metadata.method }
    name := metadata.name
    unstable_path := map_option_literal metadata.unstable_path
    r0_path := map_option_literal metadata.r0_path
    stable_path := map_option_literal metadata.stable_path
    added := map_option_literal metadata.added
    deprecated := map_option_literal metadata.deprecated
    removed := map_option_literal metadata.removed
    rate_limited := metadata.rate_limited
    authentication :=
      { base := "ruma_common::api::AuthScheme", ident := metadata.authentication } }

/-- `Api::expand_all` (`api.rs` lines 52-105).  The result of the
`ensure_feature_presence()` call (which reads the process-wide lazy cell) is
passed in as `featureCheck`; `quote!` concatenation is modelled as list
concatenation of top-level items in source order: optional diagnostic,
descriptor constant, optional request binding, optional response binding,
unused-error-type placeholder. -/
def Api.expand_all (self : Api) (featureCheck : Option SynError) : List Item :=
  let maybe_error := Option.map Item.compileError featureCheck
  let metadata := self.metadata
  let error_ty := resolveErrorTy self.error_ty
  let request := Option.map
    (fun req => Item.requestBinding
      { metadata := metadata, error_ty := error_ty, request := req })
    self.request
  let response := Option.map
    (fun res => Item.responseBinding
      { metadata := metadata, error_ty := error_ty, response := res })
    self.response
  let metadata_doc := "Metadata for the `" ++ metadata.name ++ "` API endpoint."
  maybe_error.toList
    ++ [Item.metadataConst metadata_doc (mkDescriptor metadata)]
    ++ request.toList
    ++ response.toList
    ++ [Item.silenceUnused error_ty]

/-- First emitted `METADATA` descriptor in an item list, if any. -/
def descriptorOf : List Item → Option Descriptor
  | [] => none
  | Item.metadataConst _ d :: _ => some d
  | _ :: rest => descriptorOf rest

/-- First `_SilenceUnusedError` placeholder in an item list, if any: the error
type the emitted module references. -/
def errorTyUsed : List Item → Option ErrorTyTokens
  | [] => none
  | Item.silenceUnused ty :: _ => some ty
  | _ :: rest => errorTyUsed rest

/-- Recover a `Metadata` value from an emitted descriptor, undoing the
literal-to-symbol conversion on method/authentication and the present/absent
lowering on the optional fields. -/
def Descriptor.toMetadata (d : Descriptor) : Metadata :=
  { description := d.description
    method := d.method.ident
    name := d.name
    unstable_path := d.unstable_path.toOption
    r0_path := d.r0_path.toOption
    stable_path := d.stable_path.toOption
    added := d.added.toOption
    deprecated := d.deprecated.toOption
    removed := d.removed.toOption
    rate_limited := d.rate_limited
    authentication := d.authentication.ident }

/-! Capability check (`ensure_feature_presence`, `api.rs` lines 170-217). -/

/-- The contents of a manifest file as the check sees them after the external
`toml::from_slice` deserialization into `CargoToml { features }`: either bytes
that fail to deserialize, or a well-formed manifest recording whether a
`client` and a `server` feature are declared (`features.client.is_some()` /
`features.server.is_some()` in the source). -/
inductive ManifestBytes where
  | malformed
  | wellFormed (client : Bool) (server : Bool)
deriving DecidableEq, Repr

/-- The process environment and file system visible to the check: the
`CARGO_MANIFEST_DIR` variable (`none` when unset or unreadable) and the
readable files as an association list from path to contents (`none` lookup
means `fs::read` fails). -/
structure BuildEnv where
  cargo_manifest_dir : Option String
  fs : List (String × ManifestBytes)
deriving DecidableEq, Repr

/-- `Path::new(&manifest_dir).join("Cargo.toml")` (`api.rs` line 188). -/
def manifestPath (dir : String) : String := dir ++ "/Cargo.toml"

/-- Error message for an unreadable `CARGO_MANIFEST_DIR` (`api.rs` line 186). -/
def readDirMsg : String := "Failed to read CARGO_MANIFEST_DIR"

/-- Error message for an unreadable manifest file (`api.rs` line 190). -/
def readManifestMsg : String := "Failed to read Cargo.toml"

/-- Error message for an unparseable manifest (`api.rs` line 193). -/
def parseManifestMsg : String := "Failed to parse Cargo.toml"

/-- Error message for a missing `client` feature (`api.rs` lines 198-200). -/
def missingClientMsg : String :=
  "This crate doesn\x27t define a `client` feature in its `Cargo.toml`.\n" ++
  "Please add a `client` feature such that generated `OutgoingRequest` and " ++
  "`IncomingResponse` implementations can be enabled."

/-- Error message for a missing `server` feature (`api.rs` lines 207-209). -/
def missingServerMsg : String :=
  "This crate doesn\x27t define a `server` feature in its `Cargo.toml`.\n" ++
  "Please add a `server` feature such that generated `IncomingRequest` and " ++
  "`OutgoingResponse` implementations can be enabled."

/-- The body of the `Lazy::new` closure in `ensure_feature_presence`
(`api.rs` lines 184-214): read `CARGO_MANIFEST_DIR`, read and parse the
manifest, then require a `client` feature and then a `server` feature. -/
def featurePresenceCheck (env : BuildEnv) : Except SynError Unit :=
  match env.cargo_manifest_dir with
  | none => Except.error { span := callSite, msg := readDirMsg }
  | some manifest_dir =>
    match env.fs.lookup (manifestPath manifest_dir) with
    | none => Except.error { span := callSite, msg := readManifestMsg }
    | some manifest_bytes =>
      match manifest_bytes with
      | ManifestBytes.malformed =>
        Except.error { span := callSite, msg := parseManifestMsg }
      | ManifestBytes.wellFormed client server =>
        if client = false then
          Except.error { span := callSite, msg := missingClientMsg }
        else if server = false then
          Except.error { span := callSite, msg := missingServerMsg }
        else
          Except.ok ()

/-- The error component of a check result (`RESULT.as_ref().err()`). -/
def exceptErr {ε α : Type} : Except ε α → Option ε
  | Except.error e => some e
  | Except.ok _ => none

/-- `ensure_feature_presence` (`api.rs` lines 172-217).  The `static RESULT:
Lazy<Result<(), syn::Error>>` cell is modelled by explicit state passing: the
cache is `none` before the first call; a call computes the check only when the
cache is empty and otherwise returns the stored result, never re-reading the
environment.  Returns the borrowed error (if any) together with the cache
state after the call. -/
def ensure_feature_presence (cache : Option (Except SynError Unit))
    (env : BuildEnv) : Option SynError × Option (Except SynError Unit) :=
  let r := match cache with
    | some r => r
    | none => featurePresenceCheck env
  (exceptErr r, some r)

/-! Helper lemmas. -/

/-- `parseOuterAttrs` consumes exactly a block of attribute tokens and stops at
the first non-attribute token. -/
lemma parseOuterAttrs_append (attrs : List Attribute) (rest : List Tok)
    (h : peekAttr rest = false) :
    parseOuterAttrs (attrs.map Tok.attrT ++ rest) = (attrs, rest) := by
  induction attrs with
  | nil =>
    simp only [List.map_nil, List.nil_append]
    cases rest with
    | nil => rfl
    | cons t ts =>
      cases t with
      | attrT a => simp [peekAttr] at h
      | requestKw s => rfl
      | responseKw s => rfl
      | errorKw s => rfl
      | colon => rfl
      | braceGroup fs => rfl
      | typeRef ty => rfl
  | cons a as ih =>
    simp only [List.map_cons, List.cons_append, parseOuterAttrs, List.append_eq, ih]

/-- Undoing `map_option_literal` with `Lowered.toOption` is the identity. -/
lemma toOption_map_option_literal {α : Type} (x : Option α) :
    (map_option_literal x).toOption = x := by
  cases x <;> rfl

/-- `Descriptor.toMetadata` inverts `mkDescriptor`. -/
lemma toMetadata_mkDescriptor (md : Metadata) :
    (mkDescriptor md).toMetadata = md := by
  cases md
  simp [mkDescriptor, Descriptor.toMetadata, toOption_map_option_literal]

/-! Example values used by the concrete witnesses below. -/

/-- A concrete valid metadata section with all mandatory fields present
(spec section 8, Scenario A). -/
def exMetadata : Metadata :=
  { description := "Foo", method := "GET", name := "foo",
    unstable_path := none, r0_path := none, stable_path := some "/foo",
    added := none, deprecated := none, removed := none,
    rate_limited := false, authentication := "None" }

/-! Claim theorems. -/

/-- C1: whenever attributes are accumulated — either before a missing
`request` section, or after a `request` section — and no `response` keyword
follows, `Api` parsing fails with the attributes-without-response semantic
error, and the span of the diagnostic is that of the first such attribute. -/
theorem c1_attrs_without_response_fails
    (md : Metadata) (attrs1 attrs : List Attribute) (fs : List Field)
    (s : Span) (rest : List Tok)
    (hne : attrs ≠ [])
    (hAttr : peekAttr rest = false)
    (hReq : peekRequest rest = false)
    (hResp : peekResponse rest = false) :
    Api.parse md (attrs.map Tok.attrT ++ rest)
      = Except.error { span := (attrs.head hne).span, msg := attrsOnErrorMsg }
    ∧ Api.parse md (attrs1.map Tok.attrT
        ++ Tok.requestKw s :: Tok.colon :: Tok.braceGroup fs
        :: (attrs.map Tok.attrT ++ rest))
      = Except.error { span := (attrs.head hne).span, msg := attrsOnErrorMsg } := by
  cases attrs with
  | nil => exact absurd rfl hne
  | cons a as =>
    have hp : parseOuterAttrs (List.map Tok.attrT (a :: as) ++ rest)
        = (a :: as, rest) := parseOuterAttrs_append _ _ hAttr
    simp only [List.map_cons, List.cons_append] at hp
    constructor
    · simp [Api.parse, hp, hReq, hResp]
    · have h1 : peekAttr (Tok.requestKw s :: Tok.colon :: Tok.braceGroup fs
          :: (Tok.attrT a :: (List.map Tok.attrT as ++ rest))) = false := rfl
      have hp1 : parseOuterAttrs (List.map Tok.attrT attrs1
            ++ (Tok.requestKw s :: Tok.colon :: Tok.braceGroup fs
              :: (Tok.attrT a :: (List.map Tok.attrT as ++ rest))))
          = (attrs1, Tok.requestKw s :: Tok.colon :: Tok.braceGroup fs
              :: (Tok.attrT a :: (List.map Tok.attrT as ++ rest))) :=
        parseOuterAttrs_append _ _ h1
      simp [Api.parse, hp1, peekRequest, parse_request, hp, hResp]

/-- Witness for C1 at a concrete input: one attribute, no request section, and
an `error` section (but no `response`) following. -/
theorem c1_attrs_without_response_fails_witness :
    Api.parse exMetadata
        ([Tok.attrT { path := "cfg", span := 7 }]
          ++ [Tok.errorKw 9, Tok.colon, Tok.typeRef "MyError"])
      = Except.error { span := 7, msg := attrsOnErrorMsg } :=
  (c1_attrs_without_response_fails exMetadata [] [{ path := "cfg", span := 7 }]
    [] 0 [Tok.errorKw 9, Tok.colon, Tok.typeRef "MyError"]
    (by decide) (by decide) (by decide) (by decide)).1

/-- C7: a request section directly followed by an `error` section (no
`response`, no attributes in between) parses successfully into a `some`
request, a `none` response and the written error type, and that error type is
used as-is in emission: the unused-error placeholder references it and the
request delegate receives it. -/
theorem c7_request_then_error_parses
    (md : Metadata) (reqAttrs : List Attribute) (fs : List Field)
    (s s2 : Span) (t : String) (rest : List Tok) (fc : Option SynError) :
    Api.parse md (reqAttrs.map Tok.attrT
        ++ Tok.requestKw s :: Tok.colon :: Tok.braceGroup fs
        :: Tok.errorKw s2 :: Tok.colon :: Tok.typeRef t :: rest)
      = Except.ok
          { metadata := md,
            request := some { request_kw := s, attributes := reqAttrs, fields := fs },
            response := none, error_ty := some t }
    ∧ errorTyUsed (Api.expand_all
          { metadata := md,
            request := some { request_kw := s, attributes := reqAttrs, fields := fs },
            response := none, error_ty := some t } fc)
        = some (ErrorTyTokens.custom t)
    ∧ Item.requestBinding
          { metadata := md, error_ty := ErrorTyTokens.custom t,
            request := { request_kw := s, attributes := reqAttrs, fields := fs } }
        ∈ Api.expand_all
          { metadata := md,
            request := some { request_kw := s, attributes := reqAttrs, fields := fs },
            response := none, error_ty := some t } fc := by
  refine ⟨?_, ?_, ?_⟩
  · have h1 : peekAttr (Tok.requestKw s :: Tok.colon :: Tok.braceGroup fs
        :: Tok.errorKw s2 :: Tok.colon :: Tok.typeRef t :: rest) = false := rfl
    have h2 : peekAttr (Tok.errorKw s2 :: Tok.colon :: Tok.typeRef t :: rest)
        = false := rfl
    have h3 := parseOuterAttrs_append [] _ h2
    simp only [List.map_nil, List.nil_append] at h3
    simp [Api.parse, parseOuterAttrs_append _ _ h1, peekRequest, parse_request, h3,
      peekResponse, parseErrorTy]
  · cases fc <;>
      simp [Api.expand_all, errorTyUsed, resolveErrorTy]
  · cases fc <;>
      simp [Api.expand_all, resolveErrorTy]

/-- A concrete request section used by witnesses. -/
def exRequest : Request :=
  { request_kw := 1, attributes := [], fields := [{ name := "body", ty := "String" }] }

/-- A concrete `Api` with a request section and a custom error type. -/
def exApiRequest : Api :=
  { metadata := exMetadata, request := some exRequest,
    response := none, error_ty := some "E" }

/-- A concrete `Api` with no request, response or error section. -/
def exApiBare : Api :=
  { metadata := exMetadata, request := none, response := none, error_ty := none }

/-- C2: for every parsed `Api` (any valid metadata with the mandatory fields
present) the emitted descriptor constant carries exactly the field
values of the metadata: recovering a `Metadata` from the emitted descriptor (undoing the
literal-to-symbol conversion on method/authentication and the present/absent
lowering on optionals) gives back the input metadata, and method and
authentication keep their identifiers under the symbol conversion. -/
theorem c2_descriptor_roundtrip (api : Api) (fc : Option SynError) :
    descriptorOf (api.expand_all fc) = some (mkDescriptor api.metadata)
    ∧ (mkDescriptor api.metadata).toMetadata = api.metadata
    ∧ (mkDescriptor api.metadata).method.ident = api.metadata.method
    ∧ (mkDescriptor api.metadata).authentication.ident = api.metadata.authentication := by
  refine ⟨?_, toMetadata_mkDescriptor api.metadata, rfl, rfl⟩
  cases fc <;> simp [Api.expand_all, descriptorOf]

/-- C4 counterexample: with a failing capability check, the generated output is
not just the single diagnostic — at a concrete bare endpoint the output still
contains the descriptor constant and the placeholder. -/
theorem c4_not_single_diagnostic :
    Api.expand_all exApiBare (some { span := callSite, msg := readDirMsg })
      ≠ [Item.compileError { span := callSite, msg := readDirMsg }] := by
  intro h
  have hlen := congrArg List.length h
  simp [Api.expand_all, exApiBare] at hlen

/-- C4 amended: when the capability check fails, its diagnostic is prepended to
the generated output, and the rest of the output (descriptor constant,
request/response bindings, placeholder) is still emitted unchanged after it. -/
theorem c4_diagnostic_prepended (api : Api) (e : SynError) :
    api.expand_all (some e) = Item.compileError e :: api.expand_all none := by
  simp [Api.expand_all]

/-- C5: the error type used in emission is the written error-type reference
when the `error` section is present and the default `MatrixError` when it is
absent; the placeholder and every request/response delegate receive exactly
that resolved type. -/
theorem c5_error_type_resolution (api : Api) (fc : Option SynError) :
    errorTyUsed (api.expand_all fc) = some (resolveErrorTy api.error_ty)
    ∧ resolveErrorTy none = ErrorTyTokens.matrixError
    ∧ (∀ t, resolveErrorTy (some t) = ErrorTyTokens.custom t)
    ∧ (∀ r, Item.requestBinding r ∈ api.expand_all fc
        → r.error_ty = resolveErrorTy api.error_ty)
    ∧ (∀ r, Item.responseBinding r ∈ api.expand_all fc
        → r.error_ty = resolveErrorTy api.error_ty) := by
  obtain ⟨md, req, res, ety⟩ := api
  refine ⟨?_, rfl, fun t => rfl, ?_, ?_⟩
  · cases fc <;> cases req <;> cases res <;>
      simp [Api.expand_all, errorTyUsed]
  · intro r hr
    cases fc <;> cases req <;> cases res <;>
      simp [Api.expand_all] at hr <;> simp [hr]
  · intro r hr
    cases fc <;> cases req <;> cases res <;>
      simp [Api.expand_all] at hr <;> simp [hr]

/-- Witness for C5 at a concrete input: the request delegate of a concrete
endpoint with error type `E` receives exactly the resolved custom type. -/
theorem c5_error_type_resolution_witness :
    ({ metadata := exMetadata, error_ty := ErrorTyTokens.custom "E",
        request := exRequest } : RequestExpansion).error_ty
      = resolveErrorTy (some "E") :=
  (c5_error_type_resolution exApiRequest none).2.2.2.1
    { metadata := exMetadata, error_ty := ErrorTyTokens.custom "E",
      request := exRequest }
    (by simp [Api.expand_all, exApiRequest, resolveErrorTy])

/-- C6: every omitted optional metadata field is emitted as the explicit
absent marker, and the absent marker is distinct from an empty string and from
a zero version, so an absent path is distinguishable from an empty one. -/
theorem c6_omitted_fields_absent (api : Api) (fc : Option SynError)
    (d : Descriptor) (hd : descriptorOf (api.expand_all fc) = some d) :
    (api.metadata.unstable_path = none → d.unstable_path = Lowered.absent)
    ∧ (api.metadata.r0_path = none → d.r0_path = Lowered.absent)
    ∧ (api.metadata.stable_path = none → d.stable_path = Lowered.absent)
    ∧ (api.metadata.added = none → d.added = Lowered.absent)
    ∧ (api.metadata.deprecated = none → d.deprecated = Lowered.absent)
    ∧ (api.metadata.removed = none → d.removed = Lowered.absent)
    ∧ (Lowered.absent : Lowered String) ≠ Lowered.present ""
    ∧ (Lowered.absent : Lowered Version)
        ≠ Lowered.present { major := 0, minor := 0 } := by
  have hd2 : d = mkDescriptor api.metadata := by
    cases fc <;> simp [Api.expand_all, descriptorOf] at hd <;> exact hd.symm
  subst hd2
  refine ⟨?_, ?_, ?_, ?_, ?_, ?_,
    fun h => Lowered.noConfusion h, fun h => Lowered.noConfusion h⟩ <;>
    intro h <;> simp [mkDescriptor, h, map_option_literal]

/-- Witness for C6 at a concrete input: the bare example endpoint omits
`unstable_path`, and its emitted descriptor marks that field absent. -/
theorem c6_omitted_fields_absent_witness :
    (mkDescriptor exMetadata).unstable_path = Lowered.absent :=
  (c6_omitted_fields_absent exApiBare none (mkDescriptor exMetadata)
    (by simp [Api.expand_all, exApiBare, descriptorOf])).1 rfl

/-- C9: descriptor emission performs no cross-field validation of the
lifecycle markers — for every combination of `added`, `deprecated` and
`removed` versions, with no ordering hypothesis whatsoever, emission produces a
descriptor reproducing the given values. -/
theorem c9_no_lifecycle_validation (api : Api) (fc : Option SynError)
    (v1 v2 v3 : Version)
    (h1 : api.metadata.added = some v1)
    (h2 : api.metadata.deprecated = some v2)
    (h3 : api.metadata.removed = some v3) :
    ∃ d, descriptorOf (api.expand_all fc) = some d
      ∧ d.added = Lowered.present v1
      ∧ d.deprecated = Lowered.present v2
      ∧ d.removed = Lowered.present v3 := by
  refine ⟨mkDescriptor api.metadata, ?_, ?_, ?_, ?_⟩
  · cases fc <;> simp [Api.expand_all, descriptorOf]
  · simp [mkDescriptor, h1, map_option_literal]
  · simp [mkDescriptor, h2, map_option_literal]
  · simp [mkDescriptor, h3, map_option_literal]

/-- A concrete metadata whose lifecycle markers are non-monotonic: deprecated
and removed versions strictly below the added version. -/
def exMetadataNonMonotonic : Metadata :=
  { exMetadata with
    added := some { major := 1, minor := 5 },
    deprecated := some { major := 1, minor := 2 },
    removed := some { major := 1, minor := 1 } }

/-- Witness for C9 at a concrete non-monotonic input: added 1.5, deprecated
1.2, removed 1.1 — the ordering is violated, yet emission reproduces all three
values. -/
theorem c9_no_lifecycle_validation_witness :
    ¬ Version.le { major := 1, minor := 5 } { major := 1, minor := 2 }
    ∧ ∃ d, descriptorOf (Api.expand_all
          { metadata := exMetadataNonMonotonic, request := none,
            response := none, error_ty := none } none) = some d
        ∧ d.added = Lowered.present { major := 1, minor := 5 }
        ∧ d.deprecated = Lowered.present { major := 1, minor := 2 }
        ∧ d.removed = Lowered.present { major := 1, minor := 1 } :=
  ⟨by simp [Version.le],
    c9_no_lifecycle_validation
      { metadata := exMetadataNonMonotonic, request := none,
        response := none, error_ty := none }
      none { major := 1, minor := 5 } { major := 1, minor := 2 }
      { major := 1, minor := 1 } rfl rfl rfl⟩

/-- A concrete environment whose manifest parses but declares no features. -/
def exEnvNoFeatures : BuildEnv :=
  { cargo_manifest_dir := some "/proj",
    fs := [("/proj/Cargo.toml", ManifestBytes.wellFormed false false)] }

/-- A concrete environment whose manifest declares only the `client` feature. -/
def exEnvOnlyClient : BuildEnv :=
  { cargo_manifest_dir := some "/proj",
    fs := [("/proj/Cargo.toml", ManifestBytes.wellFormed true false)] }

/-- C3: the capability check fails with the I/O-class diagnostics exactly when
the manifest directory variable is unreadable or the manifest file is
unreadable, with the format-class diagnostic exactly when the manifest bytes do
not parse, with the dedicated missing-`client` / missing-`server` semantic
diagnostics exactly according to which capability is undeclared, and succeeds
otherwise; the five outcomes carry pairwise distinct messages. -/
theorem c3_feature_check_classification (env : BuildEnv) :
    (env.cargo_manifest_dir = none →
      featurePresenceCheck env
        = Except.error { span := callSite, msg := readDirMsg })
    ∧ (∀ d, env.cargo_manifest_dir = some d →
        ((env.fs.lookup (manifestPath d) = none →
            featurePresenceCheck env
              = Except.error { span := callSite, msg := readManifestMsg })
        ∧ (env.fs.lookup (manifestPath d) = some ManifestBytes.malformed →
            featurePresenceCheck env
              = Except.error { span := callSite, msg := parseManifestMsg })
        ∧ (∀ client server,
            env.fs.lookup (manifestPath d)
                = some (ManifestBytes.wellFormed client server) →
            featurePresenceCheck env
              = if client = false then
                  Except.error { span := callSite, msg := missingClientMsg }
                else if server = false then
                  Except.error { span := callSite, msg := missingServerMsg }
                else Except.ok ())))
    ∧ List.Pairwise (fun a b => a ≠ b)
        [readDirMsg, readManifestMsg, parseManifestMsg,
          missingClientMsg, missingServerMsg] := by
  obtain ⟨dirOpt, fsys⟩ := env
  refine ⟨?_, ?_, by decide⟩
  · intro h
    subst h
    rfl
  · intro d hd
    subst hd
    refine ⟨?_, ?_, ?_⟩
    · intro h
      simp [featurePresenceCheck, h]
    · intro h
      simp [featurePresenceCheck, h]
    · intro client server h
      cases client <;> cases server <;> simp [featurePresenceCheck, h]

/-- Witness for C3 at a concrete input: a readable, parseable manifest that
declares neither feature fails with the missing-`client` semantic error. -/
theorem c3_feature_check_classification_witness :
    featurePresenceCheck exEnvNoFeatures
      = Except.error { span := callSite, msg := missingClientMsg } :=
  ((c3_feature_check_classification exEnvNoFeatures).2.1 "/proj" rfl).2.2
    false false (by decide)

/-- C8: the capability-check result is computed at most once and cached: a
second call, made with the cache produced by the first call, returns exactly
the result of the first call and leaves the cache unchanged, for every second
environment — in particular even if the manifest on disk changed in between. -/
theorem c8_capability_check_memoized (env1 env2 : BuildEnv) :
    ensure_feature_presence (ensure_feature_presence none env1).2 env2
      = ensure_feature_presence none env1 := by
  simp [ensure_feature_presence]

/-- C10: the `client` capability is tested before the `server` capability: a
parseable manifest declaring neither feature fails with the missing-`client`
error, and the missing-`server` error occurs only for manifests that do declare
`client` (and omit `server`). -/
theorem c10_client_checked_before_server (env : BuildEnv) :
    (∀ d, env.cargo_manifest_dir = some d →
      env.fs.lookup (manifestPath d) = some (ManifestBytes.wellFormed false false) →
      featurePresenceCheck env
        = Except.error { span := callSite, msg := missingClientMsg })
    ∧ (featurePresenceCheck env
          = Except.error { span := callSite, msg := missingServerMsg } →
        ∃ d, env.cargo_manifest_dir = some d
          ∧ env.fs.lookup (manifestPath d)
              = some (ManifestBytes.wellFormed true false)) := by
  obtain ⟨dirOpt, fsys⟩ := env
  constructor
  · intro d hd h
    subst hd
    simp [featurePresenceCheck, h]
  · intro h
    cases dirOpt with
    | none =>
      rw [show featurePresenceCheck { cargo_manifest_dir := none, fs := fsys }
            = Except.error { span := callSite, msg := readDirMsg } from rfl] at h
      exact absurd h (by decide)
    | some d =>
      refine ⟨d, rfl, ?_⟩
      cases hlk : fsys.lookup (manifestPath d) with
      | none =>
        rw [show featurePresenceCheck { cargo_manifest_dir := some d, fs := fsys }
              = Except.error { span := callSite, msg := readManifestMsg } by
            simp [featurePresenceCheck, hlk]] at h
        exact absurd h (by decide)
      | some mb =>
        cases mb with
        | malformed =>
          rw [show featurePresenceCheck { cargo_manifest_dir := some d, fs := fsys }
                = Except.error { span := callSite, msg := parseManifestMsg } by
              simp [featurePresenceCheck, hlk]] at h
          exact absurd h (by decide)
        | wellFormed client server =>
          cases client with
          | false =>
            rw [show featurePresenceCheck { cargo_manifest_dir := some d, fs := fsys }
                  = Except.error { span := callSite, msg := missingClientMsg } by
                simp [featurePresenceCheck, hlk]] at h
            exact absurd h (by decide)
          | true =>
            cases server with
            | false => rfl
            | true =>
              rw [show featurePresenceCheck { cargo_manifest_dir := some d, fs := fsys }
                    = Except.ok () by simp [featurePresenceCheck, hlk]] at h
              exact Except.noConfusion h

set_option maxRecDepth 4096 in
/-- Witness for C10 at a concrete input: the only-`client` manifest produces
the missing-`server` error, and the theorem recovers that the manifest indeed
declares `client` and omits `server`. -/
theorem c10_client_checked_before_server_witness :
    ∃ d, exEnvOnlyClient.cargo_manifest_dir = some d
      ∧ exEnvOnlyClient.fs.lookup (manifestPath d)
          = some (ManifestBytes.wellFormed true false) :=
  (c10_client_checked_before_server exEnvOnlyClient).2 (by decide)

end RumaApi
